import Mathlib

/-!
# QueueBroker

A shallow embedding of `main.go`: an HTTP broker of named rendezvous queues.

The Go heap and runtime the handlers act on are made explicit in `World`:
the registry map, the allocator of channels, the goroutines spawned by
`handlePut` and the senders blocked on each channel.  Requests are served one
at a time; what the Go runtime or the network decides (which blocked sender a
receive takes, whether a write to the connection fails, which ready case a
`select` takes) is an explicit `Env` argument, so every theorem quantified over
`Env` covers every such decision.  When the runtime runs a spawned goroutine is
an `Event` of its own, free to happen at any point between two requests: a
sender that arrives while a GET waits for its timeout is the history in which
that sender blocked just before the GET.  Each handler also records its lock,
map and channel steps in program order in `World.trace`.
-/

namespace QueueBroker

/-! ## HTTP collaborator types -/

/-- Status `http.StatusOK`. -/
def StatusOK : Nat := 200
/-- Status `http.StatusBadRequest`. -/
def StatusBadRequest : Nat := 400
/-- Status `http.StatusNotFound`. -/
def StatusNotFound : Nat := 404
/-- Status `http.StatusMethodNotAllowed`. -/
def StatusMethodNotAllowed : Nat := 405
/-- Status `http.StatusInternalServerError`. -/
def StatusInternalServerError : Nat := 500
/-- Method `http.MethodGet`. -/
def MethodGet : String := "GET"
/-- Method `http.MethodPut`. -/
def MethodPut : String := "PUT"

/-- One call made by a handler on its `http.ResponseWriter`. -/
inductive Call where
  | WriteHeader (code : Nat)
  | Write (data : String)
deriving DecidableEq, Repr

/-- An `http.ResponseWriter` is modelled by the calls made on it, oldest first. -/
abbrev ResponseWriter := List Call

/-- Method `res.WriteHeader(code)`. -/
def ResponseWriter.WriteHeader (res : ResponseWriter) (code : Nat) : ResponseWriter :=
  res ++ [Call.WriteHeader code]

/-- Function `io.WriteString(res, s)`: the bytes are handed to the writer; whether the
writer reports an error is decided by the connection, `err`. -/
def WriteString (res : ResponseWriter) (s : String) (err : Bool) : ResponseWriter × Bool :=
  (res ++ [Call.Write s], err)

/-- The status line of a response, by the `http.ResponseWriter` contract: the first
`WriteHeader` or `Write` fixes it (`Write` implies 200), a handler that calls neither
answers 200, and later `WriteHeader` calls have no effect. -/
def ResponseWriter.Status : ResponseWriter → Nat
  | [] => StatusOK
  | Call.WriteHeader code :: _ => code
  | Call.Write _ :: _ => StatusOK

/-- The bytes the handler wrote as the response body: the data of its `Write` calls. -/
def ResponseWriter.Body : ResponseWriter → String
  | [] => ""
  | Call.WriteHeader _ :: rest => ResponseWriter.Body rest
  | Call.Write data :: rest => data ++ ResponseWriter.Body rest

/-- The parsed query of a URL (`url.Values`), as key/value pairs in order of appearance. -/
abbrev Values := List (String × String)

/-- Method `Values.Get(key)`: the first value of `key`, or `""` when there is none. -/
def Values.Get : Values → String → String
  | [], _ => ""
  | (k, v) :: rest, key => if k = key then v else Values.Get rest key

/-- The fields of `url.URL` the handlers read; `Query` is the result of `URL.Query()`. -/
structure URL where
  Path : String
  Query : Values
deriving DecidableEq, Repr

/-- The fields of `http.Request` the handlers read. -/
structure Request where
  Method : String
  URL : URL
deriving DecidableEq, Repr

/-! ## `strconv.Atoi` and `time.Duration` -/

/-- Decimal digits read left to right onto the accumulator `acc`; `none` at the first
byte that is not a digit. -/
def parseDigits : List Char → Nat → Option Nat
  | [], acc => some acc
  | c :: cs, acc =>
    if '0' ≤ c ∧ c ≤ '9' then parseDigits cs (acc * 10 + (c.toNat - '0'.toNat)) else none

/-- Go standard library `strconv.Atoi` on a 64-bit platform: an optional sign `+` or `-`
followed by at least one decimal digit, and a value within the range of `int`;
`none` stands for a non-nil `err`. -/
def Atoi (s : String) : Option Int :=
  match s.data with
  | [] => none
  | c :: rest =>
    let neg := decide (c = '-')
    let digits := if c = '-' ∨ c = '+' then rest else c :: rest
    match digits with
    | [] => none
    | _ :: _ =>
      match parseDigits digits 0 with
      | none => none
      | some n =>
        if neg then (if n ≤ 2 ^ 63 then some (-(n : Int)) else none)
        else (if n < 2 ^ 63 then some (n : Int) else none)

/-- Two's-complement wrap-around of an integer into `int64`. -/
def wrapInt64 (x : Int) : Int := (x + 2 ^ 63) % 2 ^ 64 - 2 ^ 63

/-- The duration `time.Duration(timeout) * time.Second`, in nanoseconds, as Go computes
it in `int64`. -/
def timeoutDuration (timeout : Int) : Int := wrapInt64 (timeout * 1000000000)

/-! ## The store, the Go runtime and the environment -/

/-- The captured variables of the goroutine that the `go` statement of `handlePut`
starts. -/
structure HandOff where
  queueName : String
  v : String
deriving DecidableEq, Repr

/-- A shared-memory or synchronisation step, recorded in program order. `none` as a
channel is the nil channel. -/
inductive Access where
  | Lock
  | Unlock
  | MapRead (key : String)
  | MapWrite (key : String)
  | ChanSend (q : Option Nat)
  | ChanRecv (q : Option Nat)
deriving DecidableEq, Repr

/-- Type `QueueStorage` with the part of the Go runtime its methods act on.
`Queues` is the map `map[string]queue`; a `queue` (`chan string`) is the identity of a
channel made by `make(queue)`, and the only writer of the map stores such a channel,
never nil. The embedded `sync.Mutex` shows as `Lock` and `Unlock` steps in `trace`. -/
structure World where
  /-- The registry `storage.Queues`. -/
  Queues : String → Option Nat
  /-- The identity the next `make(queue)` returns. -/
  nextChan : Nat
  /-- Goroutines started by `handlePut` that have not yet run their first statement. -/
  spawned : List HandOff
  /-- For each channel, the goroutines blocked in `queue <- v` on it. -/
  sendq : Nat → List HandOff
  /-- Goroutines blocked in `queue <- v` on the nil channel, forever. -/
  stuck : List HandOff
  /-- Every shared-memory and synchronisation step so far, oldest first. -/
  trace : List Access

/-- Append one step to the trace. -/
def World.log (w : World) (a : Access) : World :=
  { w with trace := w.trace ++ [a] }

/-- What the runtime and the connection decide during one request. -/
structure Env where
  /-- Which of the blocked senders a receive takes (modulo their number). -/
  pick : Nat
  /-- Whether `io.WriteString` returns a non-nil error. -/
  writeErr : Bool
  /-- Whether `select` takes the timer case when the channel and an already expired
  timer are both ready. -/
  timerFirst : Bool
deriving DecidableEq, Repr

/-- Function `NewStorage`: an empty registry, in a runtime with no goroutine. -/
def NewStorage : World :=
  { Queues := fun _ => none, nextChan := 0, spawned := [], sendq := fun _ => [],
    stuck := [], trace := [] }

/-- A receive `<-queue` that is ready: the sender chosen by `pick` among those blocked
on `queue` hands over its value and ends. `none` when no sender is blocked. -/
def recv (w : World) (queue : Nat) (pick : Nat) : Option (String × World) :=
  match (w.sendq queue)[pick % (w.sendq queue).length]? with
  | none => none
  | some g =>
    some (g.v, { w with sendq := Function.update w.sendq queue
                          ((w.sendq queue).eraseIdx (pick % (w.sendq queue).length)) })

/-! ## The program -/

/-- Function `writeMessage`. -/
def writeMessage (res : ResponseWriter) (message : String) (env : Env) : ResponseWriter :=
  match WriteString res message env.writeErr with
  | (res, true) => res.WriteHeader StatusInternalServerError
  | (res, false) => res

/-- Method `handleGet`. -/
def handleGet (storage : World) (res : ResponseWriter) (req : Request) (env : Env) :
    World × ResponseWriter :=
  let queueName := req.URL.Path
  let storage := storage.log (.MapRead queueName)
  match storage.Queues queueName with
  | none => (storage, res.WriteHeader StatusNotFound)
  | some queue =>
    let timeoutStr := req.URL.Query.Get "timeout"
    let (storage, res) :=
      if timeoutStr = "" then
        -- select with a default case: the receive is taken only if it is ready
        let storage := storage.log (.ChanRecv (some queue))
        match recv storage queue env.pick with
        | some (message, storage) => (storage, writeMessage res message env)
        | none => (storage, res.WriteHeader StatusNotFound)
      else (storage, res)
    if timeoutStr ≠ "" then
      match Atoi timeoutStr with
      | none => (storage, res.WriteHeader StatusBadRequest)
      | some timeout =>
        -- select between the receive and `time.After`: the receive is ready when a
        -- sender is blocked, the timer is ready at once when the duration is not
        -- positive; with no sender the timer fires after the duration
        let storage := storage.log (.ChanRecv (some queue))
        if timeoutDuration timeout ≤ 0 ∧ env.timerFirst = true then
          (storage, res.WriteHeader StatusNotFound)
        else
          match recv storage queue env.pick with
          | some (message, storage) => (storage, writeMessage res message env)
          | none => (storage, res.WriteHeader StatusNotFound)
    else (storage, res)

/-- Method `createQueue`. -/
def createQueue (storage : World) (queueName : String) : World :=
  let storage := storage.log .Lock
  let storage := storage.log (.MapRead queueName)
  let storage :=
    match storage.Queues queueName with
    | some _ => storage
    | none =>
      { storage.log (.MapWrite queueName) with
        Queues := Function.update storage.Queues queueName (some storage.nextChan)
        nextChan := storage.nextChan + 1 }
  storage.log .Unlock

/-- The goroutine started by `handlePut` (`queue := storage.Queues[queueName]`, then
`queue <- v`), run from its first statement until it blocks in the send: the runtime
schedules the `i`-th spawned goroutine. A missing key reads as the nil channel. -/
def handOff (storage : World) (i : Nat) : World :=
  match storage.spawned[i]? with
  | none => storage
  | some g =>
    let storage := { storage with spawned := storage.spawned.eraseIdx i }
    let storage := storage.log (.MapRead g.queueName)
    let queue := storage.Queues g.queueName
    let storage := storage.log (.ChanSend queue)
    match queue with
    | none => { storage with stuck := storage.stuck ++ [g] }
    | some c => { storage with sendq := Function.update storage.sendq c (storage.sendq c ++ [g]) }

/-- Method `handlePut`. -/
def handlePut (storage : World) (res : ResponseWriter) (req : Request) :
    World × ResponseWriter :=
  let v := req.URL.Query.Get "v"
  if v = "" then (storage, res.WriteHeader StatusBadRequest)
  else
    let queueName := req.URL.Path
    let storage := createQueue storage queueName
    ({ storage with spawned := storage.spawned ++ [{ queueName := queueName, v := v }] }, res)

/-- The closure returned by `GetHandler`, over its `storage`. -/
def handler (storage : World) (res : ResponseWriter) (req : Request) (env : Env) :
    World × ResponseWriter :=
  if req.Method = MethodGet then handleGet storage res req env
  else if req.Method = MethodPut then handlePut storage res req
  else (storage, res.WriteHeader StatusMethodNotAllowed)

/-- Function `GetHandler`: a fresh storage and the handler closed over it. -/
def GetHandler : World × (World → ResponseWriter → Request → Env → World × ResponseWriter) :=
  (NewStorage, handler)

/-- What can happen next to the broker: a request is served, or the runtime schedules
a spawned hand-off goroutine. -/
inductive Event where
  | request (req : Request) (env : Env)
  | schedule (i : Nat)

/-- One event applied to the store. -/
def step (storage : World) : Event → World
  | .request req env => (GetHandler.2 storage [] req env).1
  | .schedule i => handOff storage i

/-- A sequence of events applied in order. -/
def run (storage : World) (events : List Event) : World :=
  events.foldl step storage

/-- Whether the event is a PUT request on `queueName` that carries the value `v`. -/
def Event.isPut (queueName v : String) : Event → Prop
  | .request req _ =>
    req.Method = MethodPut ∧ req.URL.Path = queueName ∧ req.URL.Query.Get "v" = v
  | .schedule _ => False

instance (queueName v : String) (e : Event) : Decidable (Event.isPut queueName v e) := by
  cases e <;> simp only [Event.isPut] <;> infer_instance

/-- The hand-offs pending on the queue named `queueName`: the goroutines blocked in
their send on the channel registered under that name. -/
def pendingOn (storage : World) (queueName : String) : List HandOff :=
  match storage.Queues queueName with
  | some queue => storage.sendq queue
  | none => []

/-! ## Process start -/

/-- Function `strconv.Itoa`. -/
def Itoa (i : Int) : String := toString i

/-- Function `flag.IntVar(p, name, value, usage)` on the registered flag names: the flag
is registered and `*p` is set to the default `value`; the result is the registered
names and the new `*p`. Only `flag.Parse` reads the command line. -/
def IntVar (flags : List String) (name : String) (value : Int) : List String × Int :=
  (flags ++ [name], value)

/-- Function `main` up to its call of `http.ListenAndServe`: the address it listens on
when started with the command line `args`. -/
def main (_args : List String) : String :=
  let (_, port) := IntVar [] "p" 8080
  ":" ++ Itoa port

/-! ## Invariants and lock discipline -/

/-- The invariant of every store the broker reaches: registered channels were made by
`make`, no channel is registered under two names, every sender blocked on a channel was
started for the name that channel is registered under, and every spawned goroutine was
started for a registered name. -/
structure WF (w : World) : Prop where
  made : ∀ m q, w.Queues m = some q → q < w.nextChan
  inj : ∀ m1 m2 q, w.Queues m1 = some q → w.Queues m2 = some q → m1 = m2
  blocked : ∀ q g, g ∈ w.sendq q → w.Queues g.queueName = some q
  started : ∀ g, g ∈ w.spawned → ∃ q, w.Queues g.queueName = some q


/-- Every hand-off goroutine of the store, spawned or blocked on a channel, carries the
name and value of a PUT request among `pre`. -/
def Sent (pre : List Event) (w : World) : Prop :=
  ∀ g, (g ∈ w.spawned ∨ ∃ q, g ∈ w.sendq q) → ∃ e ∈ pre, Event.isPut g.queueName g.v e


/-- The hand-off `g` is the only goroutine started for its queue name, the name is
registered to channel `c`, and `g` is either still spawned or blocked on `c`. -/
structure Sole (g : HandOff) (c : Nat) (w : World) : Prop where
  reg : w.Queues g.queueName = some c
  wf : WF w
  one : List.countP (fun x => decide (x.queueName = g.queueName)) w.spawned +
    (w.sendq c).length = 1
  spawned_eq : ∀ x ∈ w.spawned, x.queueName = g.queueName → x = g
  blocked_eq : ∀ x ∈ w.sendq c, x = g


/-- Whether every read and write of the registry map in the trace happens while the
mutex is held; `held` tells whether it is held before the first step. -/
def mapLocked : List Access → Bool → Bool
  | [], _ => true
  | .Lock :: rest, _ => mapLocked rest true
  | .Unlock :: rest, _ => mapLocked rest false
  | .MapRead _ :: rest, held => held && mapLocked rest held
  | .MapWrite _ :: rest, held => held && mapLocked rest held
  | .ChanSend _ :: rest, held => mapLocked rest held
  | .ChanRecv _ :: rest, held => mapLocked rest held

/-- Whether no channel send or receive in the trace happens while the mutex is held. -/
def chanUnlocked : List Access → Bool → Bool
  | [], _ => true
  | .Lock :: rest, _ => chanUnlocked rest true
  | .Unlock :: rest, _ => chanUnlocked rest false
  | .MapRead _ :: rest, held => chanUnlocked rest held
  | .MapWrite _ :: rest, held => chanUnlocked rest held
  | .ChanSend _ :: rest, held => !held && chanUnlocked rest held
  | .ChanRecv _ :: rest, held => !held && chanUnlocked rest held

/-! ## Lemmas on the handlers -/

theorem Values.Get_of_absent (q : Values) (key : String) (h : ∀ p ∈ q, p.1 ≠ key) :
    Values.Get q key = "" := by
  induction q with
  | nil => rfl
  | cons p rest ih =>
    obtain ⟨k, v⟩ := p
    have hk : k ≠ key := h (k, v) (List.mem_cons_self _ _)
    simp only [Values.Get, hk, if_false]
    exact ih (fun p hp => h p (List.mem_cons_of_mem _ hp))

theorem handler_get (storage : World) (res : ResponseWriter) (req : Request) (env : Env)
    (h : req.Method = MethodGet) : GetHandler.2 storage res req env = handleGet storage res req env := by
  simp [GetHandler, handler, h]

theorem handler_put (storage : World) (res : ResponseWriter) (req : Request) (env : Env)
    (h : req.Method = MethodPut) : GetHandler.2 storage res req env = handlePut storage res req := by
  have hne : ¬ (MethodPut = MethodGet) := by decide
  simp [GetHandler, handler, h, hne]

theorem handler_other (storage : World) (res : ResponseWriter) (req : Request) (env : Env)
    (hget : req.Method ≠ MethodGet) (hput : req.Method ≠ MethodPut) :
    GetHandler.2 storage res req env = (storage, res.WriteHeader StatusMethodNotAllowed) := by
  simp [GetHandler, handler, hget, hput]

theorem createQueue_Queues (storage : World) (queueName : String) :
    (createQueue storage queueName).Queues =
      match storage.Queues queueName with
      | some _ => storage.Queues
      | none => Function.update storage.Queues queueName (some storage.nextChan) := by
  unfold createQueue
  simp only [World.log]
  cases h : storage.Queues queueName <;> simp

theorem createQueue_other (storage : World) (n m : String) (h : m ≠ n) :
    (createQueue storage n).Queues m = storage.Queues m := by
  rw [createQueue_Queues]
  cases storage.Queues n with
  | some q => rfl
  | none => exact Function.update_noteq h _ _

theorem Body_writeMessage (message : String) (env : Env) :
    (writeMessage [] message env).Body = message ∧
      (writeMessage [] message env).Status = StatusOK := by
  cases h : env.writeErr <;>
    simp [writeMessage, WriteString, h, ResponseWriter.Body, ResponseWriter.Status,
      ResponseWriter.WriteHeader]

theorem handleGet_absent (storage : World) (res : ResponseWriter) (req : Request) (env : Env)
    (h : storage.Queues req.URL.Path = none) :
    handleGet storage res req env =
      (storage.log (.MapRead req.URL.Path), res.WriteHeader StatusNotFound) := by
  simp [handleGet, World.log, h]

theorem handleGet_poll (storage : World) (res : ResponseWriter) (req : Request) (env : Env)
    (queue : Nat) (h : storage.Queues req.URL.Path = some queue)
    (ht : req.URL.Query.Get "timeout" = "") :
    handleGet storage res req env =
      match recv ((storage.log (.MapRead req.URL.Path)).log (.ChanRecv (some queue)))
          queue env.pick with
      | some (message, storage) => (storage, writeMessage res message env)
      | none => ((storage.log (.MapRead req.URL.Path)).log (.ChanRecv (some queue)),
          res.WriteHeader StatusNotFound) := by
  simp only [handleGet, World.log, h, ht]
  simp only [ne_eq, not_true_eq_false, if_false, if_true]

theorem handleGet_timed (storage : World) (res : ResponseWriter) (req : Request) (env : Env)
    (queue : Nat) (h : storage.Queues req.URL.Path = some queue)
    (ht : req.URL.Query.Get "timeout" ≠ "") :
    handleGet storage res req env =
      match Atoi (req.URL.Query.Get "timeout") with
      | none => (storage.log (.MapRead req.URL.Path), res.WriteHeader StatusBadRequest)
      | some timeout =>
        if timeoutDuration timeout ≤ 0 ∧ env.timerFirst = true then
          ((storage.log (.MapRead req.URL.Path)).log (.ChanRecv (some queue)),
            res.WriteHeader StatusNotFound)
        else
          match recv ((storage.log (.MapRead req.URL.Path)).log (.ChanRecv (some queue)))
              queue env.pick with
          | some (message, storage) => (storage, writeMessage res message env)
          | none => ((storage.log (.MapRead req.URL.Path)).log (.ChanRecv (some queue)),
              res.WriteHeader StatusNotFound) := by
  simp only [handleGet, World.log, h, ht]
  simp only [ne_eq, if_false]
  rw [if_pos ht]

theorem recv_none (w : World) (queue pick : Nat) (h : w.sendq queue = []) :
    recv w queue pick = none := by
  simp [recv, h]

theorem recv_some (w : World) (queue pick : Nat) (h : w.sendq queue ≠ []) :
    ∃ g, (w.sendq queue)[pick % (w.sendq queue).length]? = some g ∧
      recv w queue pick = some (g.v, { w with
        sendq := Function.update w.sendq queue
          ((w.sendq queue).eraseIdx (pick % (w.sendq queue).length)) }) := by
  have hlen : 0 < (w.sendq queue).length := List.length_pos.mpr h
  have hlt : pick % (w.sendq queue).length < (w.sendq queue).length := Nat.mod_lt _ hlen
  refine ⟨(w.sendq queue)[pick % (w.sendq queue).length], List.getElem?_eq_getElem hlt, ?_⟩
  simp [recv, List.getElem?_eq_getElem hlt]

theorem poll_effect (storage : World) (req : Request) (env : Env) (queue : Nat)
    (hget : req.Method = MethodGet) (hq : storage.Queues req.URL.Path = some queue)
    (ht : req.URL.Query.Get "timeout" = "") :
    (storage.sendq queue ≠ [] →
      ∃ i g, (storage.sendq queue)[i]? = some g ∧
        (GetHandler.2 storage [] req env).2.Status = StatusOK ∧
        (GetHandler.2 storage [] req env).2.Body = g.v ∧
        (GetHandler.2 storage [] req env).1.sendq queue = (storage.sendq queue).eraseIdx i ∧
        (∀ c, c ≠ queue → (GetHandler.2 storage [] req env).1.sendq c = storage.sendq c) ∧
        (GetHandler.2 storage [] req env).1.spawned = storage.spawned ∧
        (GetHandler.2 storage [] req env).1.stuck = storage.stuck ∧
        (GetHandler.2 storage [] req env).1.Queues = storage.Queues) ∧
    (storage.sendq queue = [] →
      (GetHandler.2 storage [] req env).2.Status = StatusNotFound ∧
        (GetHandler.2 storage [] req env).2.Body = "" ∧
        (GetHandler.2 storage [] req env).1.sendq = storage.sendq ∧
        (GetHandler.2 storage [] req env).1.spawned = storage.spawned ∧
        (GetHandler.2 storage [] req env).1.stuck = storage.stuck ∧
        (GetHandler.2 storage [] req env).1.Queues = storage.Queues) := by
  rw [handler_get storage [] req env hget, handleGet_poll storage [] req env queue hq ht]
  constructor
  · intro hne
    obtain ⟨g, hg, hrecv⟩ := recv_some
      ((storage.log (.MapRead req.URL.Path)).log (.ChanRecv (some queue))) queue env.pick hne
    rw [hrecv]
    refine ⟨_, g, hg, (Body_writeMessage g.v env).2, (Body_writeMessage g.v env).1, ?_, ?_,
      rfl, rfl, rfl⟩
    · simp [World.log]
    · intro c hc
      simp [World.log, Function.update_noteq hc]
  · intro hnil
    rw [recv_none _ queue env.pick (by exact hnil)]
    exact ⟨rfl, rfl, rfl, rfl, rfl, rfl⟩

theorem get_unknown_not_found (storage : World) (req : Request) (env : Env)
    (hget : req.Method = MethodGet) (hq : storage.Queues req.URL.Path = none) :
    (GetHandler.2 storage [] req env).2.Status = StatusNotFound ∧
      (GetHandler.2 storage [] req env).1.Queues = storage.Queues ∧
      (GetHandler.2 storage [] req env).1.Queues req.URL.Path = none := by
  rw [handler_get storage [] req env hget, handleGet_absent storage [] req env hq]
  exact ⟨rfl, rfl, hq⟩

theorem writeMessage_writes (message : String) (env : Env) (b : String)
    (h : Call.Write b ∈ writeMessage [] message env) : b = message := by
  cases he : env.writeErr <;>
    simp [writeMessage, WriteString, he, ResponseWriter.WriteHeader] at h <;> exact h

/-- What `handleGet` can do to the store: nothing but trace steps, writing no body, or
take one sender blocked on the channel registered under the path and write its value. -/
theorem handleGet_effect (storage : World) (req : Request) (env : Env) :
    ((handleGet storage [] req env).1.sendq = storage.sendq ∧
        (∀ b, Call.Write b ∉ (handleGet storage [] req env).2) ∨
      ∃ queue i g, storage.Queues req.URL.Path = some queue ∧
        (storage.sendq queue)[i]? = some g ∧
        (handleGet storage [] req env).1.sendq =
          Function.update storage.sendq queue ((storage.sendq queue).eraseIdx i) ∧
        (∀ b, Call.Write b ∈ (handleGet storage [] req env).2 → b = g.v)) ∧
    (handleGet storage [] req env).1.Queues = storage.Queues ∧
    (handleGet storage [] req env).1.nextChan = storage.nextChan ∧
    (handleGet storage [] req env).1.spawned = storage.spawned ∧
    (handleGet storage [] req env).1.stuck = storage.stuck := by
  have key : ∀ (queue : Nat), storage.Queues req.URL.Path = some queue →
      ∀ out : World × ResponseWriter,
      out = (match recv ((storage.log (.MapRead req.URL.Path)).log (.ChanRecv (some queue)))
          queue env.pick with
        | some (message, storage) => (storage, writeMessage [] message env)
        | none => ((storage.log (.MapRead req.URL.Path)).log (.ChanRecv (some queue)),
            ResponseWriter.WriteHeader [] StatusNotFound)) →
      (out.1.sendq = storage.sendq ∧ (∀ b, Call.Write b ∉ out.2) ∨
        ∃ queue i g, storage.Queues req.URL.Path = some queue ∧
          (storage.sendq queue)[i]? = some g ∧
          out.1.sendq = Function.update storage.sendq queue ((storage.sendq queue).eraseIdx i) ∧
          (∀ b, Call.Write b ∈ out.2 → b = g.v)) ∧
      out.1.Queues = storage.Queues ∧ out.1.nextChan = storage.nextChan ∧
      out.1.spawned = storage.spawned ∧ out.1.stuck = storage.stuck := by
    intro queue hq out hout
    by_cases hnil : storage.sendq queue = []
    · rw [recv_none _ queue env.pick (by exact hnil)] at hout
      subst hout
      exact ⟨Or.inl ⟨rfl, by simp [ResponseWriter.WriteHeader]⟩, rfl, rfl, rfl, rfl⟩
    · obtain ⟨g, hg, hrecv⟩ := recv_some
        ((storage.log (.MapRead req.URL.Path)).log (.ChanRecv (some queue))) queue env.pick hnil
      rw [hrecv] at hout
      subst hout
      exact ⟨Or.inr ⟨queue, _, g, hq, hg, rfl, fun b hb => writeMessage_writes g.v env b hb⟩,
        rfl, rfl, rfl, rfl⟩
  rcases Option.eq_none_or_eq_some (storage.Queues req.URL.Path) with hq | ⟨queue, hq⟩
  · rw [handleGet_absent storage [] req env hq]
    exact ⟨Or.inl ⟨rfl, by simp [ResponseWriter.WriteHeader]⟩, rfl, rfl, rfl, rfl⟩
  · by_cases ht : req.URL.Query.Get "timeout" = ""
    · exact key queue hq _ (handleGet_poll storage [] req env queue hq ht)
    · rw [handleGet_timed storage [] req env queue hq ht]
      cases Atoi (req.URL.Query.Get "timeout") with
      | none => exact ⟨Or.inl ⟨rfl, by simp [ResponseWriter.WriteHeader]⟩, rfl, rfl, rfl, rfl⟩
      | some timeout =>
        by_cases hd : timeoutDuration timeout ≤ 0 ∧ env.timerFirst = true
        · simp only [if_pos hd]
          exact ⟨Or.inl ⟨rfl, by simp [ResponseWriter.WriteHeader]⟩, rfl, rfl, rfl, rfl⟩
        · simp only [if_neg hd]
          exact key queue hq _ rfl

theorem createQueue_fields (w : World) (n : String) :
    (createQueue w n).sendq = w.sendq ∧ (createQueue w n).spawned = w.spawned ∧
    (createQueue w n).stuck = w.stuck ∧
    (w.Queues n = none →
      (createQueue w n).Queues = Function.update w.Queues n (some w.nextChan) ∧
      (createQueue w n).nextChan = w.nextChan + 1) ∧
    (∀ q, w.Queues n = some q →
      (createQueue w n).Queues = w.Queues ∧ (createQueue w n).nextChan = w.nextChan) := by
  unfold createQueue
  simp only [World.log]
  cases h : w.Queues n <;> simp

theorem handlePut_empty (w : World) (res : ResponseWriter) (req : Request)
    (hv : req.URL.Query.Get "v" = "") :
    handlePut w res req = (w, res.WriteHeader StatusBadRequest) := by
  simp [handlePut, hv]

theorem handlePut_value (w : World) (res : ResponseWriter) (req : Request)
    (hv : req.URL.Query.Get "v" ≠ "") :
    handlePut w res req =
      ({ createQueue w req.URL.Path with
          spawned := (createQueue w req.URL.Path).spawned ++
            [{ queueName := req.URL.Path, v := req.URL.Query.Get "v" }] }, res) := by
  simp [handlePut, hv]

theorem handOff_none (w : World) (i : Nat) (h : w.spawned[i]? = none) : handOff w i = w := by
  simp [handOff, h]

theorem handOff_some (w : World) (i : Nat) (g : HandOff) (h : w.spawned[i]? = some g) :
    (handOff w i).spawned = w.spawned.eraseIdx i ∧ (handOff w i).Queues = w.Queues ∧
    (handOff w i).nextChan = w.nextChan ∧
    (w.Queues g.queueName = none → (handOff w i).sendq = w.sendq) ∧
    (∀ c, w.Queues g.queueName = some c →
      (handOff w i).sendq = Function.update w.sendq c (w.sendq c ++ [g])) := by
  unfold handOff
  simp only [h, World.log]
  cases hq : w.Queues g.queueName <;> simp

theorem WF_NewStorage : WF NewStorage :=
  ⟨fun _ _ h => by simp [NewStorage] at h, fun _ _ _ h => by simp [NewStorage] at h,
   fun _ _ h => by simp [NewStorage] at h, fun _ h => by simp [NewStorage] at h⟩

theorem WF_createQueue (w : World) (n : String) (h : WF w) : WF (createQueue w n) := by
  obtain ⟨hs, hsp, _, hnone, hsome⟩ := createQueue_fields w n
  rcases Option.eq_none_or_eq_some (w.Queues n) with hq | ⟨q0, hq⟩
  · obtain ⟨hQ, hN⟩ := hnone hq
    have look : ∀ m q, (createQueue w n).Queues m = some q →
        (m = n ∧ q = w.nextChan) ∨ (m ≠ n ∧ w.Queues m = some q) := by
      intro m q hm
      rw [hQ] at hm
      by_cases hmn : m = n
      · subst hmn
        rw [Function.update_same] at hm
        exact Or.inl ⟨rfl, (Option.some.inj hm).symm⟩
      · rw [Function.update_noteq hmn] at hm
        exact Or.inr ⟨hmn, hm⟩
    have keep : ∀ m q, w.Queues m = some q → (createQueue w n).Queues m = some q := by
      intro m q hm
      have hmn : m ≠ n := fun e => by rw [e, hq] at hm; cases hm
      rw [hQ, Function.update_noteq hmn, hm]
    refine ⟨?_, ?_, ?_, ?_⟩
    · intro m q hm
      rw [hN]
      rcases look m q hm with ⟨_, e⟩ | ⟨_, e⟩
      · omega
      · have := h.made m q e
        omega
    · intro m1 m2 q h1 h2
      rcases look m1 q h1 with ⟨e1, c1⟩ | ⟨_, c1⟩ <;> rcases look m2 q h2 with ⟨e2, c2⟩ | ⟨_, c2⟩
      · rw [e1, e2]
      · have := h.made m2 q c2
        omega
      · have := h.made m1 q c1
        omega
      · exact h.inj m1 m2 q c1 c2
    · intro q g hg
      rw [hs] at hg
      exact keep _ _ (h.blocked q g hg)
    · intro g hg
      rw [hsp] at hg
      obtain ⟨q, e⟩ := h.started g hg
      exact ⟨q, keep _ _ e⟩
  · obtain ⟨hQ, hN⟩ := hsome q0 hq
    refine ⟨?_, ?_, ?_, ?_⟩
    · intro m q hm
      rw [hQ] at hm
      rw [hN]
      exact h.made m q hm
    · intro m1 m2 q h1 h2
      rw [hQ] at h1 h2
      exact h.inj m1 m2 q h1 h2
    · intro q g hg
      rw [hs] at hg
      rw [hQ]
      exact h.blocked q g hg
    · intro g hg
      rw [hsp] at hg
      rw [hQ]
      exact h.started g hg

theorem createQueue_registers (w : World) (n : String) :
    ∃ q, (createQueue w n).Queues n = some q := by
  obtain ⟨_, _, _, hnone, hsome⟩ := createQueue_fields w n
  rcases Option.eq_none_or_eq_some (w.Queues n) with hq | ⟨q0, hq⟩
  · exact ⟨w.nextChan, by rw [(hnone hq).1, Function.update_same]⟩
  · exact ⟨q0, by rw [(hsome q0 hq).1, hq]⟩

theorem WF_handlePut (w : World) (res : ResponseWriter) (req : Request) (h : WF w) :
    WF (handlePut w res req).1 := by
  by_cases hv : req.URL.Query.Get "v" = ""
  · rw [handlePut_empty w res req hv]
    exact h
  · rw [handlePut_value w res req hv]
    have hc := WF_createQueue w req.URL.Path h
    refine ⟨hc.made, hc.inj, hc.blocked, ?_⟩
    intro g hg
    rcases List.mem_append.mp hg with hg | hg
    · exact hc.started g hg
    · rw [List.mem_singleton.mp hg]
      exact createQueue_registers w req.URL.Path

theorem WF_handleGet (w : World) (req : Request) (env : Env) (h : WF w) :
    WF (handleGet w [] req env).1 := by
  obtain ⟨hcase, hQ, hN, hsp, _⟩ := handleGet_effect w req env
  refine ⟨?_, ?_, ?_, ?_⟩
  · intro m q hm
    rw [hQ] at hm
    rw [hN]
    exact h.made m q hm
  · intro m1 m2 q h1 h2
    rw [hQ] at h1 h2
    exact h.inj m1 m2 q h1 h2
  · intro q g hg
    rw [hQ]
    rcases hcase with ⟨hs, _⟩ | ⟨queue, i, g0, _, _, hs, _⟩
    · rw [hs] at hg
      exact h.blocked q g hg
    · rw [hs] at hg
      by_cases hqq : q = queue
      · subst hqq
        rw [Function.update_same] at hg
        exact h.blocked q g (List.mem_of_mem_eraseIdx hg)
      · rw [Function.update_noteq hqq] at hg
        exact h.blocked q g hg
  · intro g hg
    rw [hsp] at hg
    rw [hQ]
    exact h.started g hg

theorem WF_handOff (w : World) (i : Nat) (h : WF w) : WF (handOff w i) := by
  rcases Option.eq_none_or_eq_some (w.spawned[i]?) with hi | ⟨g0, hi⟩
  · rw [handOff_none w i hi]
    exact h
  · obtain ⟨hsp, hQ, hN, hnone, hsome⟩ := handOff_some w i g0 hi
    have hg0 : g0 ∈ w.spawned := List.getElem?_mem hi
    obtain ⟨c, hc⟩ := h.started g0 hg0
    have hs := hsome c hc
    refine ⟨?_, ?_, ?_, ?_⟩
    · intro m q hm
      rw [hQ] at hm
      rw [hN]
      exact h.made m q hm
    · intro m1 m2 q h1 h2
      rw [hQ] at h1 h2
      exact h.inj m1 m2 q h1 h2
    · intro q g hg
      rw [hQ]
      rw [hs] at hg
      by_cases hqc : q = c
      · subst hqc
        rw [Function.update_same] at hg
        rcases List.mem_append.mp hg with hg | hg
        · exact h.blocked q g hg
        · rw [List.mem_singleton.mp hg]
          exact hc
      · rw [Function.update_noteq hqc] at hg
        exact h.blocked q g hg
    · intro g hg
      rw [hsp] at hg
      rw [hQ]
      exact h.started g (List.mem_of_mem_eraseIdx hg)

theorem WF_handler (w : World) (req : Request) (env : Env) (h : WF w) :
    WF (GetHandler.2 w [] req env).1 := by
  by_cases hget : req.Method = MethodGet
  · rw [handler_get w [] req env hget]
    exact WF_handleGet w req env h
  · by_cases hput : req.Method = MethodPut
    · rw [handler_put w [] req env hput]
      exact WF_handlePut w [] req h
    · rw [handler_other w [] req env hget hput]
      exact h

theorem WF_step (w : World) (e : Event) (h : WF w) : WF (step w e) := by
  cases e with
  | request req env => exact WF_handler w req env h
  | schedule i => exact WF_handOff w i h

theorem run_snoc (w : World) (pre : List Event) (e : Event) :
    run w (pre ++ [e]) = step (run w pre) e := by
  simp [run, List.foldl_append]

theorem WF_run (w : World) (pre : List Event) (h : WF w) : WF (run w pre) := by
  induction pre using List.reverseRecOn with
  | nil => exact h
  | append_singleton pre e ih =>
    rw [run_snoc]
    exact WF_step _ e ih

/-! ## Lemmas on histories -/

theorem Sent_step (pre : List Event) (w : World) (e : Event) (h : Sent pre w) :
    Sent (pre ++ [e]) (step w e) := by
  have old : ∀ g, (g ∈ w.spawned ∨ ∃ q, g ∈ w.sendq q) →
      ∃ e0 ∈ pre ++ [e], Event.isPut g.queueName g.v e0 := by
    intro g hg
    obtain ⟨e0, he0, hp⟩ := h g hg
    exact ⟨e0, List.mem_append_left _ he0, hp⟩
  cases e with
  | request req env =>
    simp only [step]
    by_cases hget : req.Method = MethodGet
    · rw [handler_get w [] req env hget]
      obtain ⟨hcase, _, _, hsp, _⟩ := handleGet_effect w req env
      intro g hg
      apply old
      rcases hg with hg | ⟨q, hg⟩
      · rw [hsp] at hg
        exact Or.inl hg
      · rcases hcase with ⟨hs, _⟩ | ⟨queue, i, g0, _, _, hs, _⟩
        · rw [hs] at hg
          exact Or.inr ⟨q, hg⟩
        · rw [hs] at hg
          by_cases hqq : q = queue
          · subst hqq
            rw [Function.update_same] at hg
            exact Or.inr ⟨q, List.mem_of_mem_eraseIdx hg⟩
          · rw [Function.update_noteq hqq] at hg
            exact Or.inr ⟨q, hg⟩
    · by_cases hput : req.Method = MethodPut
      · rw [handler_put w [] req env hput]
        by_cases hv : req.URL.Query.Get "v" = ""
        · rw [handlePut_empty w [] req hv]
          exact old
        · rw [handlePut_value w [] req hv]
          obtain ⟨hs, hsp, _, _, _⟩ := createQueue_fields w req.URL.Path
          intro g hg
          rcases hg with hg | ⟨q, hg⟩
          · rcases List.mem_append.mp hg with hg | hg
            · rw [hsp] at hg
              exact old g (Or.inl hg)
            · rw [List.mem_singleton.mp hg]
              exact ⟨Event.request req env, List.mem_append_right _ (List.mem_singleton.mpr rfl),
                hput, rfl, rfl⟩
          · have hg : g ∈ (createQueue w req.URL.Path).sendq q := hg
            rw [hs] at hg
            exact old g (Or.inr ⟨q, hg⟩)
      · rw [handler_other w [] req env hget hput]
        exact old
  | schedule i =>
    simp only [step]
    rcases Option.eq_none_or_eq_some (w.spawned[i]?) with hi | ⟨g0, hi⟩
    · rw [handOff_none w i hi]
      exact old
    · obtain ⟨hsp, _, _, hnone, hsome⟩ := handOff_some w i g0 hi
      have hg0 : g0 ∈ w.spawned := List.getElem?_mem hi
      intro g hg
      apply old
      rcases hg with hg | ⟨q, hg⟩
      · rw [hsp] at hg
        exact Or.inl (List.mem_of_mem_eraseIdx hg)
      · rcases Option.eq_none_or_eq_some (w.Queues g0.queueName) with hq | ⟨c, hq⟩
        · rw [hnone hq] at hg
          exact Or.inr ⟨q, hg⟩
        · rw [hsome c hq] at hg
          by_cases hqc : q = c
          · subst hqc
            rw [Function.update_same] at hg
            rcases List.mem_append.mp hg with hg | hg
            · exact Or.inr ⟨q, hg⟩
            · rw [List.mem_singleton.mp hg]
              exact Or.inl hg0
          · rw [Function.update_noteq hqc] at hg
            exact Or.inr ⟨q, hg⟩

theorem Sent_run (pre : List Event) : Sent pre (run NewStorage pre) := by
  induction pre using List.reverseRecOn with
  | nil =>
    intro g hg
    rcases hg with hg | ⟨q, hg⟩ <;> simp [run, NewStorage] at hg
  | append_singleton pre e ih =>
    rw [run_snoc]
    exact Sent_step pre _ e ih

theorem step_absent (w : World) (e : Event) (n : String) (h : w.Queues n = none)
    (hno : ∀ v, ¬ Event.isPut n v e) : (step w e).Queues n = none := by
  cases e with
  | request req env =>
    simp only [step]
    by_cases hget : req.Method = MethodGet
    · rw [handler_get w [] req env hget, (handleGet_effect w req env).2.1]
      exact h
    · by_cases hput : req.Method = MethodPut
      · rw [handler_put w [] req env hput]
        have hpath : req.URL.Path ≠ n := fun e => hno _ ⟨hput, e, rfl⟩
        by_cases hv : req.URL.Query.Get "v" = ""
        · rw [handlePut_empty w [] req hv]
          exact h
        · rw [handlePut_value w [] req hv]
          exact (createQueue_other w req.URL.Path n (Ne.symm hpath)).trans h
      · rw [handler_other w [] req env hget hput]
        exact h
  | schedule i =>
    simp only [step]
    rcases Option.eq_none_or_eq_some (w.spawned[i]?) with hi | ⟨g0, hi⟩
    · rw [handOff_none w i hi]
      exact h
    · rw [(handOff_some w i g0 hi).2.1]
      exact h

theorem run_absent (pre : List Event) (n : String)
    (hno : ∀ e ∈ pre, ∀ v, ¬ Event.isPut n v e) : (run NewStorage pre).Queues n = none := by
  induction pre using List.reverseRecOn with
  | nil => rfl
  | append_singleton pre e ih =>
    rw [run_snoc]
    exact step_absent _ e n (ih (fun e0 he0 => hno e0 (List.mem_append_left _ he0)))
      (hno e (List.mem_append_right _ (List.mem_singleton.mpr rfl)))

theorem countP_eraseIdx {α : Type} (p : α → Bool) (l : List α) (i : Nat) (g : α)
    (h : l[i]? = some g) :
    List.countP p (l.eraseIdx i) + (if p g = true then 1 else 0) = List.countP p l := by
  induction l generalizing i with
  | nil => simp at h
  | cons a t ih =>
    cases i with
    | zero =>
      simp only [List.getElem?_cons_zero, Option.some.injEq] at h
      subst h
      simp [List.countP_cons]
    | succ j =>
      simp only [List.getElem?_cons_succ] at h
      have := ih j h
      simp only [List.eraseIdx_cons_succ, List.countP_cons]
      omega

theorem Sole_handOff (g : HandOff) (c : Nat) (w : World) (i : Nat) (h : Sole g c w) :
    Sole g c (handOff w i) := by
  rcases Option.eq_none_or_eq_some (w.spawned[i]?) with hi | ⟨g0, hi⟩
  · rw [handOff_none w i hi]
    exact h
  · obtain ⟨hsp, hQ, _, _, hsome⟩ := handOff_some w i g0 hi
    have hg0 : g0 ∈ w.spawned := List.getElem?_mem hi
    obtain ⟨c0, hc0⟩ := h.wf.started g0 hg0
    have hs := hsome c0 hc0
    have hcount := countP_eraseIdx (fun x => decide (x.queueName = g.queueName)) w.spawned i g0 hi
    have hone := h.one
    refine ⟨by rw [hQ]; exact h.reg, WF_handOff w i h.wf, ?_, ?_, ?_⟩
    · rw [hsp, hs]
      by_cases hn : g0.queueName = g.queueName
      · have hcc : c0 = c := Option.some.inj ((hc0.symm.trans (hn ▸ rfl)).trans h.reg)
        subst hcc
        simp only [hn, decide_True, if_true] at hcount
        rw [Function.update_same, List.length_append, List.length_singleton]
        omega
      · have hcc : c ≠ c0 := fun e => hn (h.wf.inj _ _ c0 hc0 (e ▸ h.reg))
        simp only [hn, decide_False, Bool.false_eq_true, if_false] at hcount
        rw [Function.update_noteq hcc]
        omega
    · intro x hx hxn
      rw [hsp] at hx
      exact h.spawned_eq x (List.mem_of_mem_eraseIdx hx) hxn
    · intro x hx
      rw [hs] at hx
      by_cases hcc : c = c0
      · subst hcc
        rw [Function.update_same] at hx
        rcases List.mem_append.mp hx with hx | hx
        · exact h.blocked_eq x hx
        · rw [List.mem_singleton.mp hx]
          exact h.spawned_eq g0 hg0 (h.wf.inj _ _ c hc0 h.reg)
      · rw [Function.update_noteq hcc] at hx
        exact h.blocked_eq x hx

theorem Sole_run (g : HandOff) (c : Nat) (w : World) (sched : List Nat) (h : Sole g c w) :
    Sole g c (run w (sched.map Event.schedule)) := by
  induction sched using List.reverseRecOn with
  | nil => exact h
  | append_singleton sched i ih =>
    rw [List.map_append, List.map_singleton, run_snoc]
    exact Sole_handOff g c _ i ih

theorem Sole_handlePut (w : World) (req : Request) (hwf : WF w)
    (hv : req.URL.Query.Get "v" ≠ "") (hnew : w.Queues req.URL.Path = none) :
    Sole { queueName := req.URL.Path, v := req.URL.Query.Get "v" } w.nextChan
      (handlePut w [] req).1 := by
  rw [handlePut_value w [] req hv]
  obtain ⟨hs, hsp, _, hnone, _⟩ := createQueue_fields w req.URL.Path
  obtain ⟨hQ, _⟩ := hnone hnew
  have hwf2 := WF_handlePut w [] req hwf
  rw [handlePut_value w [] req hv] at hwf2
  have hq0 : w.sendq w.nextChan = [] := by
    apply List.eq_nil_iff_forall_not_mem.mpr
    intro x hx
    have := hwf.made _ _ (hwf.blocked _ x hx)
    omega
  have hnone_sp : ∀ x ∈ w.spawned, x.queueName ≠ req.URL.Path := by
    intro x hx e
    obtain ⟨q, hq⟩ := hwf.started x hx
    rw [e, hnew] at hq
    cases hq
  have hc0 : List.countP (fun x => decide (x.queueName = req.URL.Path)) w.spawned = 0 := by
    rw [List.countP_eq_zero]
    intro x hx
    simpa using hnone_sp x hx
  refine ⟨?_, hwf2, ?_, ?_, ?_⟩
  · show (createQueue w req.URL.Path).Queues req.URL.Path = some w.nextChan
    rw [hQ, Function.update_same]
  · show List.countP _ ((createQueue w req.URL.Path).spawned ++ _) +
      ((createQueue w req.URL.Path).sendq w.nextChan).length = 1
    rw [hsp, hs, hq0, List.countP_append, hc0]
    simp
  · intro x hx hxn
    have hx : x ∈ (createQueue w req.URL.Path).spawned ++
        [{ queueName := req.URL.Path, v := req.URL.Query.Get "v" }] := hx
    rw [hsp] at hx
    rcases List.mem_append.mp hx with hx | hx
    · exact absurd hxn (hnone_sp x hx)
    · exact List.mem_singleton.mp hx
  · intro x hx
    have hx : x ∈ (createQueue w req.URL.Path).sendq w.nextChan := hx
    rw [hs, hq0] at hx
    cases hx

theorem Sole_pending (g : HandOff) (c : Nat) (w : World) (h : Sole g c w)
    (hp : g ∈ pendingOn w g.queueName) : w.sendq c = [g] := by
  simp only [pendingOn, h.reg] at hp
  have hone := h.one
  have hpos : 0 < (w.sendq c).length := List.length_pos_of_mem hp
  have hlen : (w.sendq c).length = 1 := by omega
  obtain ⟨x, hx⟩ := List.length_eq_one.mp hlen
  rw [hx]
  rw [h.blocked_eq x (by rw [hx]; exact List.mem_singleton.mpr rfl)]

/-! ## The claims -/

/-- C1 (round trip): after any history `pre` that leaves the name `n` unregistered, a PUT
of a non-empty value `v` to `n` is answered 200 at once, with its hand-off only spawned and
no sender queue touched; and whatever spawned goroutines the runtime schedules next, once
this hand-off is pending on `n` a GET on `n` without timeout is answered 200 with body
exactly `v`, and a second such GET straight after is answered 404. -/
theorem round_trip (pre : List Event) (sched : List Nat) (n v : String) (put get : Request)
    (env1 env2 env3 : Env)
    (hput : put.Method = MethodPut) (hpn : put.URL.Path = n)
    (hpv : put.URL.Query.Get "v" = v) (hv : v ≠ "")
    (hget : get.Method = MethodGet) (hgn : get.URL.Path = n)
    (hgt : get.URL.Query.Get "timeout" = "")
    (hnew : (run GetHandler.1 pre).Queues n = none) :
    let s0 := run GetHandler.1 pre
    let r1 := GetHandler.2 s0 [] put env1
    let s2 := run r1.1 (sched.map Event.schedule)
    let r2 := GetHandler.2 s2 [] get env2
    let r3 := GetHandler.2 r2.1 [] get env3
    (r1.2.Status = StatusOK ∧ r1.1.sendq = s0.sendq ∧
      r1.1.spawned = s0.spawned ++ [{ queueName := n, v := v }]) ∧
    ({ queueName := n, v := v } ∈ pendingOn s2 n →
      r2.2.Status = StatusOK ∧ r2.2.Body = v ∧ r3.2.Status = StatusNotFound) := by
  intro s0 r1 s2 r2 r3
  have hwf : WF s0 := WF_run _ pre WF_NewStorage
  have hv2 : put.URL.Query.Get "v" ≠ "" := by rw [hpv]; exact hv
  have hnew2 : s0.Queues put.URL.Path = none := by rw [hpn]; exact hnew
  have hr1 : r1 = handlePut s0 [] put := handler_put s0 [] put env1 hput
  have hsole : Sole { queueName := n, v := v } s0.nextChan r1.1 := by
    have := Sole_handlePut s0 put hwf hv2 hnew2
    rw [hpn, hpv] at this
    rw [hr1]
    exact this
  have hsole2 : Sole { queueName := n, v := v } s0.nextChan s2 := Sole_run _ _ _ sched hsole
  constructor
  · rw [hr1, handlePut_value s0 [] put hv2]
    obtain ⟨hs, hsp, _, _, _⟩ := createQueue_fields s0 put.URL.Path
    refine ⟨rfl, hs, ?_⟩
    show (createQueue s0 put.URL.Path).spawned ++ _ = _
    rw [hsp, hpn, hpv]
  · intro hpend
    have hq : s2.sendq s0.nextChan = [{ queueName := n, v := v }] :=
      Sole_pending _ _ s2 hsole2 hpend
    have hreg : s2.Queues get.URL.Path = some s0.nextChan := by rw [hgn]; exact hsole2.reg
    have hne : s2.sendq s0.nextChan ≠ [] := by rw [hq]; simp
    obtain ⟨i, g, hg, hst, hbody, hsq, _, _, _, hQ⟩ :=
      (poll_effect s2 get env2 s0.nextChan hget hreg hgt).1 hne
    have hgeq : g = { queueName := n, v := v } := by
      have := List.getElem?_mem hg
      rw [hq] at this
      exact List.mem_singleton.mp this
    have hi : i = 0 := by
      rw [hq] at hg
      cases i with
      | zero => rfl
      | succ j => simp at hg
    have hempty : r2.1.sendq s0.nextChan = [] := by
      show (GetHandler.2 s2 [] get env2).1.sendq s0.nextChan = []
      rw [hsq, hq, hi]
      rfl
    have hreg3 : r2.1.Queues get.URL.Path = some s0.nextChan := by
      show (GetHandler.2 s2 [] get env2).1.Queues get.URL.Path = _
      rw [hQ]
      exact hreg
    refine ⟨hst, ?_, ((poll_effect r2.1 get env3 s0.nextChan hget hreg3 hgt).2 hempty).1⟩
    show (GetHandler.2 s2 [] get env2).2.Body = v
    rw [hbody, hgeq]

/-- The round trip of the value `hello` through the new queue `/q1`. -/
theorem round_trip_witness :
    (GetHandler.2 (run GetHandler.1 []) []
        { Method := "PUT", URL := { Path := "/q1", Query := [("v", "hello")] } }
        { pick := 0, writeErr := false, timerFirst := false }).2.Status = StatusOK ∧
    (GetHandler.2
        (run (GetHandler.2 (run GetHandler.1 []) []
          { Method := "PUT", URL := { Path := "/q1", Query := [("v", "hello")] } }
          { pick := 0, writeErr := false, timerFirst := false }).1
          ([0].map Event.schedule)) []
        { Method := "GET", URL := { Path := "/q1", Query := [] } }
        { pick := 0, writeErr := false, timerFirst := false }).2.Body = "hello" :=
  ⟨(round_trip [] [0] "/q1" "hello"
      { Method := "PUT", URL := { Path := "/q1", Query := [("v", "hello")] } }
      { Method := "GET", URL := { Path := "/q1", Query := [] } }
      { pick := 0, writeErr := false, timerFirst := false }
      { pick := 0, writeErr := false, timerFirst := false }
      { pick := 0, writeErr := false, timerFirst := false }
      rfl rfl rfl (by decide) rfl rfl rfl rfl).1.1,
   ((round_trip [] [0] "/q1" "hello"
      { Method := "PUT", URL := { Path := "/q1", Query := [("v", "hello")] } }
      { Method := "GET", URL := { Path := "/q1", Query := [] } }
      { pick := 0, writeErr := false, timerFirst := false }
      { pick := 0, writeErr := false, timerFirst := false }
      { pick := 0, writeErr := false, timerFirst := false }
      rfl rfl rfl (by decide) rfl rfl rfl rfl).2 (by decide)).2.1⟩

/-- C2: a GET without timeout on a registered queue. If a hand-off is pending on its
channel, the answer is 200 with the value of one pending hand-off as body, exactly that
hand-off leaves the channel, and every other channel, the spawned goroutines and the
registry are as before. If none is pending, the answer is 404 with no body and all of
these are unchanged. -/
theorem get_poll (storage : World) (req : Request) (env : Env) (queue : Nat)
    (hget : req.Method = MethodGet) (hq : storage.Queues req.URL.Path = some queue)
    (ht : req.URL.Query.Get "timeout" = "") :
    (storage.sendq queue ≠ [] →
      ∃ i g, (storage.sendq queue)[i]? = some g ∧
        (GetHandler.2 storage [] req env).2.Status = StatusOK ∧
        (GetHandler.2 storage [] req env).2.Body = g.v ∧
        (GetHandler.2 storage [] req env).1.sendq queue = (storage.sendq queue).eraseIdx i ∧
        (∀ c, c ≠ queue → (GetHandler.2 storage [] req env).1.sendq c = storage.sendq c) ∧
        (GetHandler.2 storage [] req env).1.spawned = storage.spawned ∧
        (GetHandler.2 storage [] req env).1.stuck = storage.stuck ∧
        (GetHandler.2 storage [] req env).1.Queues = storage.Queues) ∧
    (storage.sendq queue = [] →
      (GetHandler.2 storage [] req env).2.Status = StatusNotFound ∧
        (GetHandler.2 storage [] req env).2.Body = "" ∧
        (GetHandler.2 storage [] req env).1.sendq = storage.sendq ∧
        (GetHandler.2 storage [] req env).1.spawned = storage.spawned ∧
        (GetHandler.2 storage [] req env).1.stuck = storage.stuck ∧
        (GetHandler.2 storage [] req env).1.Queues = storage.Queues) :=
  poll_effect storage req env queue hget hq ht

/-- A poll of `/q1` with one hand-off pending, and a poll before that hand-off runs. -/
theorem get_poll_witness :
    (∃ (i : Nat) (g : HandOff), ((run NewStorage
          [Event.request { Method := "PUT", URL := { Path := "/q1", Query := [("v", "a")] } }
            { pick := 0, writeErr := false, timerFirst := false },
           Event.schedule 0]).sendq 0)[i]? = some g ∧
        (GetHandler.2 (run NewStorage
          [Event.request { Method := "PUT", URL := { Path := "/q1", Query := [("v", "a")] } }
            { pick := 0, writeErr := false, timerFirst := false },
           Event.schedule 0]) []
          { Method := "GET", URL := { Path := "/q1", Query := [] } }
          { pick := 3, writeErr := true, timerFirst := false }).2.Body = g.v) ∧
    (GetHandler.2 (run NewStorage
          [Event.request { Method := "PUT", URL := { Path := "/q1", Query := [("v", "a")] } }
            { pick := 0, writeErr := false, timerFirst := false }]) []
          { Method := "GET", URL := { Path := "/q1", Query := [] } }
          { pick := 3, writeErr := true, timerFirst := false }).2.Status = StatusNotFound :=
  ⟨by
    obtain ⟨i, g, h1, _, h3, _⟩ := (get_poll (run NewStorage
          [Event.request { Method := "PUT", URL := { Path := "/q1", Query := [("v", "a")] } }
            { pick := 0, writeErr := false, timerFirst := false },
           Event.schedule 0])
        { Method := "GET", URL := { Path := "/q1", Query := [] } }
        { pick := 3, writeErr := true, timerFirst := false } 0 rfl (by decide) rfl).1
      (by decide)
    exact ⟨i, g, h1, h3⟩,
   ((get_poll (run NewStorage
          [Event.request { Method := "PUT", URL := { Path := "/q1", Query := [("v", "a")] } }
            { pick := 0, writeErr := false, timerFirst := false }])
        { Method := "GET", URL := { Path := "/q1", Query := [] } }
        { pick := 3, writeErr := true, timerFirst := false } 0 rfl (by decide) rfl).2
      (by decide)).1⟩

/-- C3 (queue independence): after any history `pre` of requests and scheduling steps,
and for names `n1 ≠ n2`, a request on `n2` of any method writes as body only a value that
a PUT on `n2` in `pre` carried, so a hand-off sent to `n1` is never what a GET on `n2`
returns; and it leaves the hand-offs pending on `n1` and the goroutines spawned for `n1`
as they were. -/
theorem queue_independence (pre : List Event) (n1 n2 : String) (req : Request) (env : Env)
    (hne : n1 ≠ n2) (hpath : req.URL.Path = n2) :
    (∀ b, Call.Write b ∈ (GetHandler.2 (run GetHandler.1 pre) [] req env).2 →
      ∃ e ∈ pre, Event.isPut n2 b e) ∧
    pendingOn (GetHandler.2 (run GetHandler.1 pre) [] req env).1 n1 =
      pendingOn (run GetHandler.1 pre) n1 ∧
    (GetHandler.2 (run GetHandler.1 pre) [] req env).1.spawned.filter
        (fun g => decide (g.queueName = n1)) =
      (run GetHandler.1 pre).spawned.filter (fun g => decide (g.queueName = n1)) := by
  have hwf : WF (run GetHandler.1 pre) := WF_run _ pre WF_NewStorage
  have hsent : Sent pre (run GetHandler.1 pre) := Sent_run pre
  generalize run GetHandler.1 pre = w at hwf hsent ⊢
  by_cases hget : req.Method = MethodGet
  · rw [handler_get w [] req env hget]
    obtain ⟨hcase, hQ, _, hsp, _⟩ := handleGet_effect w req env
    rcases hcase with ⟨hs, hw⟩ | ⟨queue, i, g0, hq, hg0, hs, hw⟩
    · refine ⟨fun b hb => absurd hb (hw b), ?_, by rw [hsp]⟩
      simp only [pendingOn, hQ, hs]
    · have hmem : g0 ∈ w.sendq queue := List.getElem?_mem hg0
      have hname : g0.queueName = n2 :=
        hwf.inj _ _ queue (hwf.blocked queue g0 hmem) (hpath ▸ hq)
      refine ⟨?_, ?_, by rw [hsp]⟩
      · intro b hb
        obtain ⟨e, he, hp⟩ := hsent g0 (Or.inr ⟨queue, hmem⟩)
        rw [hw b hb, ← hname]
        exact ⟨e, he, hp⟩
      · simp only [pendingOn, hQ, hs]
        rcases Option.eq_none_or_eq_some (w.Queues n1) with h1 | ⟨c1, h1⟩
        · simp only [h1]
        · simp only [h1]
          have hc : c1 ≠ queue := fun e =>
            hne (hwf.inj n1 n2 queue (e ▸ h1) (hpath ▸ hq))
          rw [Function.update_noteq hc]
  · by_cases hput : req.Method = MethodPut
    · rw [handler_put w [] req env hput]
      by_cases hv : req.URL.Query.Get "v" = ""
      · rw [handlePut_empty w [] req hv]
        exact ⟨fun b hb => by simp [ResponseWriter.WriteHeader] at hb, rfl, rfl⟩
      · rw [handlePut_value w [] req hv]
        obtain ⟨hs, hsp, _, _, _⟩ := createQueue_fields w req.URL.Path
        have hQ1 := createQueue_other w req.URL.Path n1 (hpath ▸ hne)
        refine ⟨fun b hb => by simp at hb, ?_, ?_⟩
        · simp only [pendingOn, hQ1, hs]
        · simp only [hsp, List.filter_append, List.filter_cons, List.filter_nil]
          have : ¬ (req.URL.Path = n1) := hpath ▸ (Ne.symm hne)
          simp [this]
    · rw [handler_other w [] req env hget hput]
      exact ⟨fun b hb => by simp [ResponseWriter.WriteHeader] at hb, rfl, rfl⟩

/-- A GET on `/q2` while a hand-off is pending on `/q1`. -/
theorem queue_independence_witness :
    pendingOn (GetHandler.2 (run GetHandler.1
        [Event.request { Method := "PUT", URL := { Path := "/q1", Query := [("v", "a")] } }
          { pick := 0, writeErr := false, timerFirst := false },
         Event.schedule 0]) []
        { Method := "GET", URL := { Path := "/q2", Query := [] } }
        { pick := 0, writeErr := false, timerFirst := false }).1 "/q1" =
      pendingOn (run GetHandler.1
        [Event.request { Method := "PUT", URL := { Path := "/q1", Query := [("v", "a")] } }
          { pick := 0, writeErr := false, timerFirst := false },
         Event.schedule 0]) "/q1" :=
  (queue_independence
    [Event.request { Method := "PUT", URL := { Path := "/q1", Query := [("v", "a")] } }
          { pick := 0, writeErr := false, timerFirst := false },
     Event.schedule 0] "/q1" "/q2"
    { Method := "GET", URL := { Path := "/q2", Query := [] } }
    { pick := 0, writeErr := false, timerFirst := false } (by decide) rfl).2.1

/-- C4 (get-or-create, sequential): after `createQueue(n)` the registry has `n`; every
name registered before, `n` included, keeps its channel; every other name is looked up as
before, so none is added; and a second `createQueue(n)` leaves the registry as the first
call left it. This holds for every store and every name, the empty string included. -/
theorem createQueue_get_or_create (storage : World) (n : String) :
    (∃ q, (createQueue storage n).Queues n = some q) ∧
    (∀ m q, storage.Queues m = some q → (createQueue storage n).Queues m = some q) ∧
    (∀ m, m ≠ n → (createQueue storage n).Queues m = storage.Queues m) ∧
    (createQueue (createQueue storage n) n).Queues = (createQueue storage n).Queues := by
  have h1 := createQueue_Queues storage n
  have h2 := createQueue_Queues (createQueue storage n) n
  cases h : storage.Queues n with
  | some q0 =>
    simp only [h] at h1
    rw [h1, h] at h2
    simp only at h2
    refine ⟨⟨q0, by rw [h1, h]⟩, fun m q hm => by rw [h1, hm], fun m _ => by rw [h1], ?_⟩
    rw [h2, h1]
  | none =>
    simp only [h] at h1
    rw [h1] at h2
    simp only [Function.update_same] at h2
    refine ⟨⟨storage.nextChan, by rw [h1, Function.update_same]⟩, ?_, ?_, ?_⟩
    · intro m q hm
      have hmn : m ≠ n := fun e => by rw [e, h] at hm; cases hm
      rw [h1, Function.update_noteq hmn, hm]
    · intro m hmn
      rw [h1, Function.update_noteq hmn]
    · rw [h2, h1]

/-- Creating the queue of the empty name next to the registered `/a`. -/
theorem createQueue_get_or_create_witness :
    (createQueue (createQueue NewStorage "/a") "").Queues "/a" = some 0 ∧
    (createQueue (createQueue NewStorage "/a") "").Queues "/b" = NewStorage.Queues "/b" :=
  ⟨(createQueue_get_or_create (createQueue NewStorage "/a") "").2.1 "/a" 0 (by decide),
   ((createQueue_get_or_create (createQueue NewStorage "/a") "").2.2.1 "/b" (by decide)).trans
     ((createQueue_get_or_create NewStorage "/a").2.2.1 "/b" (by decide))⟩

/-- C5 (reads never create): a GET on a name that is not registered is answered 404,
whatever its query, and leaves the registry as it was, the name still absent; and a name
that no PUT request of the history referenced is not registered. -/
theorem reads_never_create (storage : World) (req : Request) (env : Env)
    (hget : req.Method = MethodGet) :
    (storage.Queues req.URL.Path = none →
      (GetHandler.2 storage [] req env).2.Status = StatusNotFound ∧
      (GetHandler.2 storage [] req env).1.Queues = storage.Queues ∧
      (GetHandler.2 storage [] req env).1.Queues req.URL.Path = none) ∧
    (∀ pre : List Event, (∀ e ∈ pre, ∀ v, ¬ Event.isPut req.URL.Path v e) →
      (run GetHandler.1 pre).Queues req.URL.Path = none) :=
  ⟨get_unknown_not_found storage req env hget, fun pre hno => run_absent pre _ hno⟩

/-- A GET with a malformed timeout on `/unknown`, after a PUT to another queue. -/
theorem reads_never_create_witness :
    (GetHandler.2 NewStorage []
        { Method := "GET", URL := { Path := "/unknown", Query := [("timeout", "abc")] } }
        { pick := 0, writeErr := false, timerFirst := false }).2.Status = StatusNotFound ∧
    (run GetHandler.1
        [Event.request { Method := "PUT", URL := { Path := "/q1", Query := [("v", "a")] } }
          { pick := 0, writeErr := false, timerFirst := false }]).Queues "/unknown" = none :=
  ⟨((reads_never_create NewStorage
        { Method := "GET", URL := { Path := "/unknown", Query := [("timeout", "abc")] } }
        { pick := 0, writeErr := false, timerFirst := false } rfl).1 rfl).1,
   (reads_never_create NewStorage
        { Method := "GET", URL := { Path := "/unknown", Query := [("timeout", "abc")] } }
        { pick := 0, writeErr := false, timerFirst := false } rfl).2
      [Event.request { Method := "PUT", URL := { Path := "/q1", Query := [("v", "a")] } }
          { pick := 0, writeErr := false, timerFirst := false }]
      (by
        intro e he v h
        rw [List.mem_singleton.mp he] at h
        exact absurd h.2.1 (by decide))⟩

/-- C6: a PUT whose `v` parameter is absent or empty is answered 400 and leaves the whole
store as it was: no queue is created and no hand-off is spawned. A PUT with a non-empty
`v` is never answered 400. -/
theorem put_value_required (storage : World) (req : Request) (env : Env)
    (hput : req.Method = MethodPut) :
    (((∀ p ∈ req.URL.Query, p.1 ≠ "v") ∨ req.URL.Query.Get "v" = "") →
        (GetHandler.2 storage [] req env).2.Status = StatusBadRequest ∧
        (GetHandler.2 storage [] req env).1 = storage) ∧
    (req.URL.Query.Get "v" ≠ "" →
        (GetHandler.2 storage [] req env).2.Status ≠ StatusBadRequest) := by
  rw [handler_put storage [] req env hput]
  constructor
  · intro h
    have hv : req.URL.Query.Get "v" = "" := by
      rcases h with h | h
      · exact Values.Get_of_absent _ _ h
      · exact h
    simp [handlePut, hv, ResponseWriter.WriteHeader, ResponseWriter.Status]
  · intro hv
    simp [handlePut, hv, ResponseWriter.Status, StatusOK, StatusBadRequest]

/-- A PUT on `/q2` without a value, and one with the value `hello`. -/
theorem put_value_required_witness :
    ((GetHandler.2 NewStorage [] { Method := "PUT", URL := { Path := "/q2", Query := [] } }
        { pick := 0, writeErr := false, timerFirst := false }).2.Status = StatusBadRequest ∧
      (GetHandler.2 NewStorage [] { Method := "PUT", URL := { Path := "/q2", Query := [] } }
        { pick := 0, writeErr := false, timerFirst := false }).1 = NewStorage) ∧
    (GetHandler.2 NewStorage []
        { Method := "PUT", URL := { Path := "/q2", Query := [("v", "hello")] } }
        { pick := 0, writeErr := false, timerFirst := false }).2.Status ≠ StatusBadRequest :=
  ⟨(put_value_required NewStorage { Method := "PUT", URL := { Path := "/q2", Query := [] } }
      { pick := 0, writeErr := false, timerFirst := false } rfl).1 (Or.inr (by decide)),
   (put_value_required NewStorage
      { Method := "PUT", URL := { Path := "/q2", Query := [("v", "hello")] } }
      { pick := 0, writeErr := false, timerFirst := false } rfl).2 (by decide)⟩

/-- C7, as the code has it: a GET on a registered queue whose non-empty `timeout` is
rejected by `strconv.Atoi` (not an optionally signed decimal integer within the range of
`int`) is answered 400, and no sender queue, goroutine or registry entry changes. -/
theorem get_bad_timeout (storage : World) (req : Request) (env : Env) (queue : Nat)
    (hget : req.Method = MethodGet) (hq : storage.Queues req.URL.Path = some queue)
    (ht : req.URL.Query.Get "timeout" ≠ "") (hbad : Atoi (req.URL.Query.Get "timeout") = none) :
    (GetHandler.2 storage [] req env).2.Status = StatusBadRequest ∧
      (GetHandler.2 storage [] req env).1.sendq = storage.sendq ∧
      (GetHandler.2 storage [] req env).1.spawned = storage.spawned ∧
      (GetHandler.2 storage [] req env).1.stuck = storage.stuck ∧
      (GetHandler.2 storage [] req env).1.Queues = storage.Queues := by
  rw [handler_get storage [] req env hget, handleGet_timed storage [] req env queue hq ht, hbad]
  exact ⟨rfl, rfl, rfl, rfl, rfl⟩

/-- A GET on the registered `/q1` with the timeout `abc`. -/
theorem get_bad_timeout_witness :
    (GetHandler.2 (run NewStorage
        [Event.request { Method := "PUT", URL := { Path := "/q1", Query := [("v", "a")] } }
          { pick := 0, writeErr := false, timerFirst := false },
         Event.schedule 0]) []
        { Method := "GET", URL := { Path := "/q1", Query := [("timeout", "abc")] } }
        { pick := 0, writeErr := false, timerFirst := false }).2.Status = StatusBadRequest :=
  (get_bad_timeout (run NewStorage
        [Event.request { Method := "PUT", URL := { Path := "/q1", Query := [("v", "a")] } }
          { pick := 0, writeErr := false, timerFirst := false },
         Event.schedule 0])
    { Method := "GET", URL := { Path := "/q1", Query := [("timeout", "abc")] } }
    { pick := 0, writeErr := false, timerFirst := false } 0 rfl (by decide) (by decide)
    (by decide)).1

/-- C7 fails for negative numbers: the timeout `-1` is not a non-negative integer, yet
`strconv.Atoi` parses it, and a GET on the registered `/q1` with `timeout=-1` is answered
404 by the timed receive, not 400. -/
theorem negative_timeout_not_rejected :
    (¬ ∃ k : Nat, Atoi "-1" = some (k : Int)) ∧ Atoi "-1" = some (-1) ∧
    (run NewStorage
        [Event.request { Method := "PUT", URL := { Path := "/q1", Query := [("v", "a")] } }
          { pick := 0, writeErr := false, timerFirst := false }]).Queues "/q1" = some 0 ∧
    (GetHandler.2 (run NewStorage
        [Event.request { Method := "PUT", URL := { Path := "/q1", Query := [("v", "a")] } }
          { pick := 0, writeErr := false, timerFirst := false }]) []
        { Method := "GET", URL := { Path := "/q1", Query := [("timeout", "-1")] } }
        { pick := 0, writeErr := false, timerFirst := false }).2.Status = StatusNotFound ∧
    (GetHandler.2 (run NewStorage
        [Event.request { Method := "PUT", URL := { Path := "/q1", Query := [("v", "a")] } }
          { pick := 0, writeErr := false, timerFirst := false }]) []
        { Method := "GET", URL := { Path := "/q1", Query := [("timeout", "-1")] } }
        { pick := 0, writeErr := false, timerFirst := false }).2.Status ≠ StatusBadRequest := by
  have h : Atoi "-1" = some (-1) := by decide
  refine ⟨?_, h, by decide, by decide, by decide⟩
  rintro ⟨k, hk⟩
  rw [h] at hk
  have := Option.some.inj hk
  omega

/-- C8: a request whose method is neither GET nor PUT is answered 405, on any path and
with any query, and the whole store is as it was. -/
theorem other_method_not_allowed (storage : World) (req : Request) (env : Env)
    (hget : req.Method ≠ MethodGet) (hput : req.Method ≠ MethodPut) :
    (GetHandler.2 storage [] req env).2.Status = StatusMethodNotAllowed ∧
      (GetHandler.2 storage [] req env).1 = storage := by
  rw [handler_other storage [] req env hget hput]
  exact ⟨rfl, rfl⟩

/-- A POST on `/q1`. -/
theorem other_method_not_allowed_witness :
    (GetHandler.2 NewStorage []
        { Method := "POST", URL := { Path := "/q1", Query := [("v", "x")] } }
        { pick := 0, writeErr := false, timerFirst := false }).2.Status = StatusMethodNotAllowed ∧
      (GetHandler.2 NewStorage []
        { Method := "POST", URL := { Path := "/q1", Query := [("v", "x")] } }
        { pick := 0, writeErr := false, timerFirst := false }).1 = NewStorage :=
  other_method_not_allowed NewStorage _ _ (by decide) (by decide)

/-- C9 fails on the code: `main` registers the flag `p` but never calls `flag.Parse`, so
started with `-p 9000` (as started with no option) it listens on `:8080`. -/
theorem main_ignores_port_option :
    main ["-p", "9000"] = ":8080" ∧ main [] = ":8080" := by
  decide

/-- C10 fails on the code: `createQueue` reads and writes the registry map with the mutex
held, but the lookup of `handleGet` and the lookup of the hand-off goroutine of
`handlePut` access the map without it; no channel operation happens with the mutex held. -/
theorem map_lookups_without_lock :
    mapLocked (createQueue NewStorage "/q1").trace false = true ∧
    (handleGet NewStorage []
        { Method := "GET", URL := { Path := "/q1", Query := [] } }
        { pick := 0, writeErr := false, timerFirst := false }).1.trace
      = [Access.MapRead "/q1"] ∧
    mapLocked (handleGet NewStorage []
        { Method := "GET", URL := { Path := "/q1", Query := [] } }
        { pick := 0, writeErr := false, timerFirst := false }).1.trace false = false ∧
    (handOff (handlePut NewStorage []
        { Method := "PUT", URL := { Path := "/q1", Query := [("v", "a")] } }).1 0).trace
      = [Access.Lock, Access.MapRead "/q1", Access.MapWrite "/q1", Access.Unlock,
         Access.MapRead "/q1", Access.ChanSend (some 0)] ∧
    mapLocked (handOff (handlePut NewStorage []
        { Method := "PUT", URL := { Path := "/q1", Query := [("v", "a")] } }).1 0).trace
      false = false ∧
    chanUnlocked (handleGet (handOff (handlePut NewStorage []
        { Method := "PUT", URL := { Path := "/q1", Query := [("v", "a")] } }).1 0) []
        { Method := "GET", URL := { Path := "/q1", Query := [] } }
        { pick := 0, writeErr := false, timerFirst := false }).1.trace false = true := by
  decide

end QueueBroker
